import Mathlib

/-!
Verification development for the `expand-images` repository
(`src/expand-image.ts`, function `expandImage`).

The program expands an image horizontally to a target aspect ratio by
adding left/right padding, with three padding strategies: solid color,
edge-extend and blur.  We shallowly embed the geometry arithmetic, the
pixel-level compositing pipeline and the sequence of codec operations
issued by each branch of `expandImage`, and prove properties of the
embedding.

Numeric conventions: JavaScript numbers are modelled as exact rationals
(`ℚ`) and integer-valued quantities as `ℤ`; `Math.round` and
`Math.floor` are modelled by the standard floor-based definitions.
The image codec (the `sharp` library) is external to the repository;
its operations (extract, resize, blur, composite, createCanvas) are
modelled from the specification's codec interface.
-/

namespace ExpandImages

/-- One pixel: red, green, blue, alpha channel values.  The alpha field is
meaningful only for 4-channel buffers. -/
structure Pixel where
  r : ℕ
  g : ℕ
  b : ℕ
  a : ℕ
deriving DecidableEq, Repr

/-- Modelled from the spec: a decoded raster with width, height, channel
count (3 or 4) and pixel data.  Pixel data is total over `ℤ × ℤ`
coordinates; only coordinates inside `[0, width) × [0, height)` are
meaningful. -/
structure ImageBuffer where
  width : ℤ
  height : ℤ
  channels : ℕ
  pix : ℤ → ℤ → Pixel

/-- JavaScript `Math.round`: round half toward positive infinity. -/
def jsRound (q : ℚ) : ℤ := ⌊q + 1/2⌋

/-- JavaScript `Math.floor(z / 2)` for an integer `z`: floor division by 2. -/
def mathFloorHalf (z : ℤ) : ℤ := ⌊(z : ℚ) / 2⌋

/-- `newWidth` as computed at line 61 of `expand-image.ts`:
`Math.round(newHeight * targetRatio)` with `newHeight = originalHeight`. -/
def newWidthOf (originalHeight : ℤ) (ratio : ℚ) : ℤ :=
  jsRound ((originalHeight : ℚ) * ratio)

/-- `xOffset` as computed at line 68 of `expand-image.ts`:
`Math.floor((newWidth - originalWidth) / 2)`.  The code also binds
`paddingWidth = xOffset` (line 69). -/
def xOffsetOf (newWidth originalWidth : ℤ) : ℤ :=
  mathFloorHalf (newWidth - originalWidth)

/-- The geometry record of the specification's data model. -/
structure Geometry where
  newWidth : ℤ
  newHeight : ℤ
  leftPaddingWidth : ℤ
  rightPaddingWidth : ℤ
deriving DecidableEq, Repr

/-- The geometry computed by `expandImage` (lines 59–69 of
`expand-image.ts`): `newHeight = originalHeight`,
`newWidth = Math.round(newHeight * targetRatio)`,
`xOffset = Math.floor((newWidth - originalWidth) / 2)`.  The source is
composited at horizontal offset `xOffset`, so the left padding is
`xOffset` and the right padding is the remaining width to the right of
the source, `newWidth - originalWidth - xOffset`. -/
def computeGeometry (originalWidth originalHeight : ℤ) (ratio : ℚ) : Geometry :=
  let newHeight := originalHeight
  let newWidth := newWidthOf newHeight ratio
  let xOffset := xOffsetOf newWidth originalWidth
  { newWidth := newWidth
    newHeight := newHeight
    leftPaddingWidth := xOffset
    rightPaddingWidth := newWidth - originalWidth - xOffset }

/-- `edgeWidth` as computed at line 121 of `expand-image.ts`:
`Math.min(20, Math.floor(originalWidth * 0.1))`. -/
def edgeWidthOf (originalWidth : ℤ) : ℤ :=
  min 20 ⌊(originalWidth : ℚ) * (1/10)⌋

/-! ## Codec operations (modelled from the spec's image-codec interface) -/

/-- Modelled from the spec: `extract(buffer, left, top, width, height)`
crops a region; pixel `(x, y)` of the result is pixel
`(left + x, top + y)` of the input.  Channel count is preserved. -/
def extract (buf : ImageBuffer) (left top w h : ℤ) : ImageBuffer :=
  { width := w, height := h, channels := buf.channels,
    pix := fun x y => buf.pix (left + x) (top + y) }

/-- Modelled from the spec: nearest-neighbor resize to `w × h`.  Output
pixel `(x, y)` samples the source at the proportional index, clamped to
the source bounds; for a 1-pixel-wide source every output column samples
column 0. -/
def resizeNearest (buf : ImageBuffer) (w h : ℤ) : ImageBuffer :=
  { width := w, height := h, channels := buf.channels,
    pix := fun x y =>
      buf.pix (min (x * buf.width / w) (buf.width - 1))
        (min (y * buf.height / h) (buf.height - 1)) }

/-- Modelled from the spec: smooth `fill`-mode resize to `w × h`.  The
exact smoothing kernel of the codec is not specified; the model uses the
same proportional index map as the nearest-neighbor resize (no claim
depends on the interpolated pixel values, only on dimensions and
channels). -/
def resizeFill (buf : ImageBuffer) (w h : ℤ) : ImageBuffer :=
  { width := w, height := h, channels := buf.channels,
    pix := fun x y =>
      buf.pix (min (x * buf.width / w) (buf.width - 1))
        (min (y * buf.height / h) (buf.height - 1)) }

/-- Offsets `-r, …, r` used by the blur window. -/
def blurOffsets (r : ℕ) : List ℤ :=
  (List.range (2 * r + 1)).map (fun i => (i : ℤ) - (r : ℤ))

/-- Clamp a coordinate into `[0, bound - 1]`. -/
def clampCoord (v bound : ℤ) : ℤ := min (max v 0) (bound - 1)

/-- Sum of a list of pixels, channel-wise. -/
def pixelSum (ps : List Pixel) : Pixel :=
  ps.foldl (fun acc p => ⟨acc.r + p.r, acc.g + p.g, acc.b + p.b, acc.a + p.a⟩)
    ⟨0, 0, 0, 0⟩

/-- Modelled from the spec: gaussian-style blur with the configured
amount.  The model averages a square window of radius `⌈amount⌉` around
each pixel, clamping the window at the borders; no claim depends on the
precise kernel, only on which inputs the operation reads. -/
def blurBuf (buf : ImageBuffer) (amount : ℚ) : ImageBuffer :=
  let r : ℕ := (max 0 ⌈amount⌉).toNat
  let n : ℕ := (2 * r + 1) * (2 * r + 1)
  { width := buf.width, height := buf.height, channels := buf.channels,
    pix := fun x y =>
      let window :=
        (blurOffsets r).flatMap (fun dx =>
          (blurOffsets r).map (fun dy =>
            buf.pix (clampCoord (x + dx) buf.width) (clampCoord (y + dy) buf.height)))
      let s := pixelSum window
      ⟨s.r / n, s.g / n, s.b / n, s.a / n⟩ }

/-- Modelled from the spec: `createCanvas` allocates a `w × h` buffer
with the given channel count, every pixel set to the background color. -/
def createCanvas (w h : ℤ) (channels : ℕ) (background : Pixel) : ImageBuffer :=
  { width := w, height := h, channels := channels,
    pix := fun _ _ => background }

/-- Modelled from the spec: composite a single layer onto a base buffer
at offset `(top, left)`; inside the layer's extent the layer's pixel
wins, elsewhere the base shows through.  Output dimensions and channel
count are the base's. -/
def compositeOne (base layer : ImageBuffer) (top left : ℤ) : ImageBuffer :=
  { base with pix := fun x y =>
      if left ≤ x ∧ x < left + layer.width ∧ top ≤ y ∧ y < top + layer.height then
        layer.pix (x - left) (y - top)
      else base.pix x y }

/-- Modelled from the spec: composite a list of `(layer, top, left)`
entries onto a base in list order, later entries drawn over earlier
ones. -/
def compositeList (base : ImageBuffer) (layers : List (ImageBuffer × ℤ × ℤ)) :
    ImageBuffer :=
  layers.foldl (fun acc l => compositeOne acc l.1 l.2.1 l.2.2) base

/-! ## The expansion pipeline of `expandImage` (lines 59–183) -/

/-- The channel count of the canvases created by `expandImage`:
`metadata.hasAlpha ? 4 : 3`.  Per the data model, a buffer has an alpha
channel exactly when its channel count is 4. -/
def canvasChannels (src : ImageBuffer) : ℕ :=
  if src.channels = 4 then 4 else 3

/-- The pixel-level result of `expandImage` (lines 59–183 of
`expand-image.ts`) for a decoded source buffer, as a function of the
target ratio, padding color, padding strategy and blur amount.  Each
branch mirrors the source:

* `edge-extend` (lines 73–114): extract a 1-pixel strip at the leftmost
  and rightmost columns, nearest-stretch each to `paddingWidth` columns,
  then composite left strip, source and right strip onto a transparent
  `newWidth × newHeight` canvas at lefts `0`, `paddingWidth` and
  `paddingWidth + originalWidth`.  (The initial `extend` call at lines
  75–82 is discarded by the reassignment at line 100 and does not affect
  the pixels.)
* `blur` (lines 116–156): extract `edgeWidth`-wide strips from both
  edges, blur them, fill-stretch each to `paddingWidth` columns and
  composite as above.
* otherwise (lines 158–183): solid fill — create a canvas with the
  opaque padding color and composite the source at `xOffset`.

PNG re-encoding (`image.png().toBuffer()`) is lossless and modelled as
the identity on decoded pixels. -/
def expandPixels (src : ImageBuffer) (ratio : ℚ) (paddingColor : String)
    (paddingStrategy : String) (blurAmount : ℚ) : ImageBuffer :=
  let newHeight := src.height
  let newWidth := newWidthOf newHeight ratio
  let xOffset := xOffsetOf newWidth src.width
  let paddingWidth := xOffset
  if paddingStrategy = "edge-extend" then
    let leftEdge :=
      resizeNearest (extract src 0 0 1 src.height) paddingWidth src.height
    let rightEdge :=
      resizeNearest (extract src (src.width - 1) 0 1 src.height) paddingWidth src.height
    compositeList
      (createCanvas newWidth newHeight (canvasChannels src) ⟨0, 0, 0, 0⟩)
      [(leftEdge, 0, 0), (src, 0, paddingWidth),
       (rightEdge, 0, paddingWidth + src.width)]
  else if paddingStrategy = "blur" then
    let edgeWidth := edgeWidthOf src.width
    let leftEdge :=
      resizeFill (blurBuf (extract src 0 0 edgeWidth src.height) blurAmount)
        paddingWidth src.height
    let rightEdge :=
      resizeFill (blurBuf (extract src (src.width - edgeWidth) 0 edgeWidth src.height)
          blurAmount)
        paddingWidth src.height
    compositeList
      (createCanvas newWidth newHeight (canvasChannels src) ⟨0, 0, 0, 0⟩)
      [(leftEdge, 0, 0), (src, 0, paddingWidth),
       (rightEdge, 0, paddingWidth + src.width)]
  else
    let backgroundColor : Pixel :=
      if paddingColor = "white" then ⟨255, 255, 255, 255⟩ else ⟨0, 0, 0, 255⟩
    compositeList
      (createCanvas newWidth newHeight (canvasChannels src) backgroundColor)
      [(src, 0, xOffset)]

/-- One codec operation issued by `expandImage`, with its parameters. -/
inductive CodecOp where
  | extendOp (left right : ℤ)
  | extractOp (left top width height : ℤ)
  | resizeOp (width height : ℤ)
  | blurOp (amount : ℚ)
  | createCanvasOp (width height : ℤ) (channels : ℕ)
  | compositeOp (layers : ℕ)
deriving DecidableEq, Repr

/-- The sequence of codec buffer operations issued by `expandImage`
(lines 59–183), in source order, as a function of the source
dimensions, alpha flag and options.  The function mirrors the source's
control flow exactly: after the geometry arithmetic of lines 59–69 the
code branches on the strategy string and immediately issues buffer
operations — there is no validation of the computed geometry or of the
option values anywhere on the path. -/
def expandTrace (originalWidth originalHeight : ℤ) (ratio : ℚ)
    (paddingStrategy : String) (blurAmount : ℚ) (hasAlpha : Bool) :
    List CodecOp :=
  let newHeight := originalHeight
  let newWidth := newWidthOf newHeight ratio
  let xOffset := xOffsetOf newWidth originalWidth
  let paddingWidth := xOffset
  let channels : ℕ := if hasAlpha then 4 else 3
  if paddingStrategy = "edge-extend" then
    [CodecOp.extendOp paddingWidth paddingWidth,
     CodecOp.extractOp 0 0 1 originalHeight,
     CodecOp.resizeOp paddingWidth originalHeight,
     CodecOp.extractOp (originalWidth - 1) 0 1 originalHeight,
     CodecOp.resizeOp paddingWidth originalHeight,
     CodecOp.createCanvasOp newWidth newHeight channels,
     CodecOp.compositeOp 3]
  else if paddingStrategy = "blur" then
    let edgeWidth := edgeWidthOf originalWidth
    [CodecOp.extractOp 0 0 edgeWidth originalHeight,
     CodecOp.blurOp blurAmount,
     CodecOp.resizeOp paddingWidth originalHeight,
     CodecOp.extractOp (originalWidth - edgeWidth) 0 edgeWidth originalHeight,
     CodecOp.blurOp blurAmount,
     CodecOp.resizeOp paddingWidth originalHeight,
     CodecOp.createCanvasOp newWidth newHeight channels,
     CodecOp.compositeOp 3]
  else
    [CodecOp.createCanvasOp newWidth newHeight channels,
     CodecOp.compositeOp 1]

/-- The error conditions named by the specification's error taxonomy. -/
inductive ExpandError where
  | inputNotFound
  | unreadableDimensions
  | invalidOption
  | invalidGeometry
deriving DecidableEq, Repr

/-- Control-flow model of the whole of `expandImage` (lines 24–199).
The only error exits in the source are the file-existence check (lines
38–42) and the metadata width/height check (lines 48–50), both before
the geometry computation and independent of the options; past them the
function unconditionally computes the pixel result.  No `InvalidOption`
or `InvalidGeometry` check exists anywhere in the function. -/
def expandModel (fileExists dimsKnown : Bool) (src : ImageBuffer) (ratio : ℚ)
    (paddingColor paddingStrategy : String) (blurAmount : ℚ) :
    Except ExpandError ImageBuffer :=
  if !fileExists then Except.error ExpandError.inputNotFound
  else if !dimsKnown then Except.error ExpandError.unreadableDimensions
  else Except.ok (expandPixels src ratio paddingColor paddingStrategy blurAmount)

/-- Floor division by two leaves a remainder of 0 or 1. -/
lemma sub_two_mul_mathFloorHalf (t : ℤ) :
    t - 2 * mathFloorHalf t = 0 ∨ t - 2 * mathFloorHalf t = 1 := by
  have h1 : ((mathFloorHalf t : ℤ) : ℚ) ≤ (t : ℚ) / 2 := Int.floor_le _
  have h2 : (t : ℚ) / 2 < (mathFloorHalf t : ℤ) + 1 := Int.lt_floor_add_one _
  have h1' : 2 * mathFloorHalf t ≤ t := by
    have : (2 : ℚ) * ((mathFloorHalf t : ℤ) : ℚ) ≤ (t : ℚ) := by linarith
    exact_mod_cast this
  have h2' : t < 2 * mathFloorHalf t + 2 := by
    have : (t : ℚ) < 2 * ((mathFloorHalf t : ℤ) : ℚ) + 2 := by linarith
    exact_mod_cast this
  omega

/-! ## Helper lemmas and concrete test buffers -/

/-- A concrete 100 × 100 3-channel source buffer whose pixel at `(x, y)`
is `⟨x mod 256, y mod 256, 7, 255⟩`, so distinct columns hold distinct
colors. -/
def sampleSrc : ImageBuffer :=
  { width := 100, height := 100, channels := 3,
    pix := fun x y => ⟨x.toNat % 256, y.toNat % 256, 7, 255⟩ }

/-- A concrete 1600 × 100 3-channel source buffer (a 16:1 banner). -/
def sampleWide : ImageBuffer :=
  { width := 1600, height := 100, channels := 3,
    pix := fun _ _ => ⟨1, 2, 3, 255⟩ }

/-- The solid branch of `expandPixels` composites the source at
`xOffset` over the colored canvas: closed form of its pixel function. -/
lemma expandPixels_solid_pix (src : ImageBuffer) (ratio : ℚ) (c : String)
    (b : ℚ) (x y : ℤ) :
    (expandPixels src ratio c "solid" b).pix x y =
      if xOffsetOf (newWidthOf src.height ratio) src.width ≤ x ∧
          x < xOffsetOf (newWidthOf src.height ratio) src.width + src.width ∧
          0 ≤ y ∧ y < 0 + src.height then
        src.pix (x - xOffsetOf (newWidthOf src.height ratio) src.width) (y - 0)
      else if c = "white" then ⟨255, 255, 255, 255⟩ else ⟨0, 0, 0, 255⟩ := rfl

/-- The solid branch's output width is `newWidth`. -/
lemma expandPixels_solid_width (src : ImageBuffer) (ratio : ℚ) (c : String)
    (b : ℚ) :
    (expandPixels src ratio c "solid" b).width = newWidthOf src.height ratio := rfl

/-- The solid branch's output height is the source height. -/
lemma expandPixels_solid_height (src : ImageBuffer) (ratio : ℚ) (c : String)
    (b : ℚ) :
    (expandPixels src ratio c "solid" b).height = src.height := rfl

/-- Compositing never changes the base buffer's channel count. -/
lemma compositeList_channels (L : List (ImageBuffer × ℤ × ℤ))
    (base : ImageBuffer) :
    (compositeList base L).channels = base.channels := by
  induction L generalizing base with
  | nil => rfl
  | cons hd tl ih =>
      simpa [compositeList] using ih (compositeOne base hd.1 hd.2.1 hd.2.2)

/-- Every branch of `expandPixels` builds its result on a canvas with
`canvasChannels src` channels, which compositing preserves. -/
lemma expandPixels_channels (src : ImageBuffer) (ratio : ℚ) (c s : String)
    (b : ℚ) :
    (expandPixels src ratio c s b).channels = canvasChannels src := by
  by_cases h1 : s = "edge-extend"
  · subst h1; rfl
  · by_cases h2 : s = "blur"
    · subst h2; rfl
    · simp only [expandPixels, if_neg h1, if_neg h2]
      rfl

/-! ## Claim theorems -/

/-- C1: For every positive originalWidth, originalHeight and targetRatio,
the geometry computed by `expandImage` satisfies
`newWidth = round(originalHeight * targetRatio)`,
`newHeight = originalHeight`,
`leftPaddingWidth + originalWidth + rightPaddingWidth = newWidth`, and
`rightPaddingWidth - leftPaddingWidth ∈ {0, 1}` (the right side absorbs
the rounding remainder when the total padding is odd). -/
theorem computeGeometry_correct (ow oh : ℤ) (ratio : ℚ)
    (_how : 0 < ow) (_hoh : 0 < oh) (_hr : 0 < ratio) :
    (computeGeometry ow oh ratio).newWidth = jsRound ((oh : ℚ) * ratio) ∧
    (computeGeometry ow oh ratio).newHeight = oh ∧
    (computeGeometry ow oh ratio).leftPaddingWidth + ow +
        (computeGeometry ow oh ratio).rightPaddingWidth =
      (computeGeometry ow oh ratio).newWidth ∧
    ((computeGeometry ow oh ratio).rightPaddingWidth -
          (computeGeometry ow oh ratio).leftPaddingWidth = 0 ∨
      (computeGeometry ow oh ratio).rightPaddingWidth -
          (computeGeometry ow oh ratio).leftPaddingWidth = 1) := by
  have h := sub_two_mul_mathFloorHalf (newWidthOf oh ratio - ow)
  refine ⟨rfl, rfl, ?_, ?_⟩
  · show mathFloorHalf (newWidthOf oh ratio - ow) + ow +
        (newWidthOf oh ratio - ow - mathFloorHalf (newWidthOf oh ratio - ow)) =
      newWidthOf oh ratio
    omega
  · show newWidthOf oh ratio - ow - mathFloorHalf (newWidthOf oh ratio - ow) -
          mathFloorHalf (newWidthOf oh ratio - ow) = 0 ∨
        newWidthOf oh ratio - ow - mathFloorHalf (newWidthOf oh ratio - ow) -
          mathFloorHalf (newWidthOf oh ratio - ow) = 1
    omega

/-- Witness for C1 at a 100 × 100 source and target ratio 1.91: the
geometry is 191 × 100 with left padding 45 and right padding 46. -/
theorem computeGeometry_correct_witness :
    (0 : ℤ) < 100 ∧ (0 : ℚ) < 191/100 ∧
    ((computeGeometry 100 100 (191/100)).newWidth =
        jsRound ((100 : ℚ) * (191/100)) ∧
      (computeGeometry 100 100 (191/100)).newHeight = 100 ∧
      (computeGeometry 100 100 (191/100)).leftPaddingWidth + 100 +
          (computeGeometry 100 100 (191/100)).rightPaddingWidth =
        (computeGeometry 100 100 (191/100)).newWidth ∧
      ((computeGeometry 100 100 (191/100)).rightPaddingWidth -
            (computeGeometry 100 100 (191/100)).leftPaddingWidth = 0 ∨
        (computeGeometry 100 100 (191/100)).rightPaddingWidth -
            (computeGeometry 100 100 (191/100)).leftPaddingWidth = 1)) :=
  ⟨by decide, by norm_num,
    computeGeometry_correct 100 100 (191/100) (by decide) (by decide) (by norm_num)⟩

/-- C2 (code behavior at the failing inputs): for a 1600 × 100 source
at target ratio 1.91 the computed `newWidth = 191` is smaller than the
source width, yet `expandImage` issues its buffer operations
(createCanvas, composite) and signals no error; likewise for the
non-positive target ratio −1.  No `InvalidGeometry` check exists on the
path. -/
theorem no_invalidGeometry_guard :
    newWidthOf 100 (191/100) = 191 ∧ (191 : ℤ) < 1600 ∧
    expandTrace 1600 100 (191/100) "solid" 10 false =
      [CodecOp.createCanvasOp 191 100 3, CodecOp.compositeOp 1] ∧
    expandTrace 1600 100 (-1) "solid" 10 false =
      [CodecOp.createCanvasOp (-100) 100 3, CodecOp.compositeOp 1] ∧
    expandModel true true sampleWide (191/100) "black" "solid" 10 =
      Except.ok (expandPixels sampleWide (191/100) "black" "solid" 10) := by
  refine ⟨?_, by decide, ?_, ?_, rfl⟩
  · norm_num [newWidthOf, jsRound]
  · simp only [expandTrace, String.reduceEq, reduceIte]
    norm_num [newWidthOf, jsRound, xOffsetOf, mathFloorHalf]
  · simp only [expandTrace, String.reduceEq, reduceIte]
    norm_num [newWidthOf, jsRound, xOffsetOf, mathFloorHalf]

/-- C3 (code behavior at the failing input): expanding the 100 × 100
`sampleSrc` with the edge-extend strategy at target ratio 1.91 yields a
191-wide output whose columns 0–44 replicate source column 0 and whose
columns 145–189 replicate source column 99, but whose column 190 is the
transparent background `{0,0,0,0}` — not the source's column-99 pixel —
because both strips are stretched to `paddingWidth = 45`, leaving the
last column of the 46-wide right padding uncovered. -/
theorem edge_extend_right_gap :
    (expandPixels sampleSrc (191/100) "black" "edge-extend" 10).width = 191 ∧
    (expandPixels sampleSrc (191/100) "black" "edge-extend" 10).pix 0 3 =
      sampleSrc.pix 0 3 ∧
    (expandPixels sampleSrc (191/100) "black" "edge-extend" 10).pix 44 3 =
      sampleSrc.pix 0 3 ∧
    (expandPixels sampleSrc (191/100) "black" "edge-extend" 10).pix 145 3 =
      sampleSrc.pix 99 3 ∧
    (expandPixels sampleSrc (191/100) "black" "edge-extend" 10).pix 189 3 =
      sampleSrc.pix 99 3 ∧
    (expandPixels sampleSrc (191/100) "black" "edge-extend" 10).pix 190 3 =
      ⟨0, 0, 0, 0⟩ ∧
    sampleSrc.pix 99 3 ≠ (⟨0, 0, 0, 0⟩ : Pixel) := by
  refine ⟨?_, ?_, ?_, ?_, ?_, ?_, by decide⟩ <;>
    simp only [expandPixels, sampleSrc, String.reduceEq, reduceIte] <;>
    norm_num [newWidthOf, jsRound, xOffsetOf, mathFloorHalf, compositeList,
      compositeOne, createCanvas, resizeNearest, extract, canvasChannels]

/-- C4: For a 100 × 100 source expanded with the solid strategy at
target ratio 1.91, the output is a 191 × 100 canvas; the source occupies
columns [45, 145) pixel-exact and un-scaled; the 45 left columns and the
46 right columns are entirely the padding color — opaque black
`{0,0,0}` by default, opaque white `{255,255,255}` when white is
selected. -/
theorem solid_layout (src : ImageBuffer) (hw : src.width = 100)
    (hh : src.height = 100) (x y : ℤ)
    (hy : 0 ≤ y ∧ y < 100) (hx : 0 ≤ x ∧ x < 191) :
    (expandPixels src (191/100) "black" "solid" 10).width = 191 ∧
    (expandPixels src (191/100) "black" "solid" 10).height = 100 ∧
    (45 ≤ x → x < 145 →
      (expandPixels src (191/100) "black" "solid" 10).pix x y =
          src.pix (x - 45) y ∧
        (expandPixels src (191/100) "white" "solid" 10).pix x y =
          src.pix (x - 45) y) ∧
    (x < 45 ∨ 145 ≤ x →
      (expandPixels src (191/100) "black" "solid" 10).pix x y =
          ⟨0, 0, 0, 255⟩ ∧
        (expandPixels src (191/100) "white" "solid" 10).pix x y =
          ⟨255, 255, 255, 255⟩) := by
  have h191 : newWidthOf src.height (191/100) = 191 := by
    rw [hh]; norm_num [newWidthOf, jsRound]
  have h45 : xOffsetOf (newWidthOf src.height (191/100)) src.width = 45 := by
    rw [h191, hw]; norm_num [xOffsetOf, mathFloorHalf]
  refine ⟨?_, ?_, ?_, ?_⟩
  · rw [expandPixels_solid_width, h191]
  · rw [expandPixels_solid_height, hh]
  · intro ha hb
    have hcond : xOffsetOf (newWidthOf src.height (191/100)) src.width ≤ x ∧
        x < xOffsetOf (newWidthOf src.height (191/100)) src.width + src.width ∧
        0 ≤ y ∧ y < 0 + src.height := by
      rw [h45, hw, hh]; omega
    constructor <;> rw [expandPixels_solid_pix, if_pos hcond, h45] <;>
      norm_num
  · intro hout
    have hcond : ¬(xOffsetOf (newWidthOf src.height (191/100)) src.width ≤ x ∧
        x < xOffsetOf (newWidthOf src.height (191/100)) src.width + src.width ∧
        0 ≤ y ∧ y < 0 + src.height) := by
      rw [h45, hw, hh]; omega
    constructor <;> rw [expandPixels_solid_pix, if_neg hcond] <;> simp

/-- Witness for C4 at the concrete `sampleSrc` and the corner and
interior sample points `x = 0` and `x = 45`, row `y = 3`. -/
theorem solid_layout_witness :
    sampleSrc.width = 100 ∧ sampleSrc.height = 100 ∧
    ((0 : ℤ) ≤ 3 ∧ (3 : ℤ) < 100) ∧ ((0 : ℤ) ≤ 45 ∧ (45 : ℤ) < 191) ∧
    ((expandPixels sampleSrc (191/100) "black" "solid" 10).width = 191 ∧
      (expandPixels sampleSrc (191/100) "black" "solid" 10).height = 100 ∧
      (45 ≤ (45 : ℤ) → (45 : ℤ) < 145 →
        (expandPixels sampleSrc (191/100) "black" "solid" 10).pix 45 3 =
            sampleSrc.pix (45 - 45) 3 ∧
          (expandPixels sampleSrc (191/100) "white" "solid" 10).pix 45 3 =
            sampleSrc.pix (45 - 45) 3) ∧
      ((45 : ℤ) < 45 ∨ 145 ≤ (45 : ℤ) →
        (expandPixels sampleSrc (191/100) "black" "solid" 10).pix 45 3 =
            ⟨0, 0, 0, 255⟩ ∧
          (expandPixels sampleSrc (191/100) "white" "solid" 10).pix 45 3 =
            ⟨255, 255, 255, 255⟩)) :=
  ⟨rfl, rfl, by decide, by decide,
    solid_layout sampleSrc rfl rfl 45 3 (by decide) (by decide)⟩

/-- C5 counterexample: expanding the 100 × 100 `sampleSrc` with solid
black at target ratio 1.91 gives a 191-wide output; expanding that
output again with the same ratio gives width 191 again — the same
width, not a strictly wider image. -/
theorem solid_expand_twice_not_wider :
    sampleSrc.width = 100 ∧
    (expandPixels sampleSrc (191/100) "black" "solid" 10).width = 191 ∧
    (expandPixels (expandPixels sampleSrc (191/100) "black" "solid" 10)
        (191/100) "black" "solid" 10).width =
      (expandPixels sampleSrc (191/100) "black" "solid" 10).width ∧
    ¬((expandPixels sampleSrc (191/100) "black" "solid" 10).width <
      (expandPixels (expandPixels sampleSrc (191/100) "black" "solid" 10)
          (191/100) "black" "solid" 10).width) := by
  have h : (expandPixels sampleSrc (191/100) "black" "solid" 10).width = 191 := by
    rw [expandPixels_solid_width]
    norm_num [sampleSrc, newWidthOf, jsRound]
  have h2 : (expandPixels (expandPixels sampleSrc (191/100) "black" "solid" 10)
      (191/100) "black" "solid" 10).width = 191 := by
    rw [expandPixels_solid_width, expandPixels_solid_height]
    norm_num [sampleSrc, newWidthOf, jsRound]
  exact ⟨rfl, h, by rw [h, h2], by rw [h, h2]; omega⟩

/-- C5 amended: the width of a solid expansion depends only on the
source height and the target ratio, and the height is unchanged; hence
re-expanding an already-expanded image with the same ratio yields an
image of exactly the same width and height — a fixed point in
dimensions, not a strictly wider image. -/
theorem solid_expand_dimensions_idempotent (src : ImageBuffer) (ratio : ℚ)
    (c : String) (b : ℚ) :
    (expandPixels (expandPixels src ratio c "solid" b) ratio c "solid" b).width =
      (expandPixels src ratio c "solid" b).width ∧
    (expandPixels (expandPixels src ratio c "solid" b) ratio c "solid" b).height =
      (expandPixels src ratio c "solid" b).height :=
  ⟨rfl, rfl⟩

/-- C6: in the blur strategy the edge-sample strip width is
`min(20, floor(originalWidth * 0.1))`; it never exceeds one tenth of the
source width and never exceeds 20 pixels, and it is the width of the
first edge strip the blur branch extracts. -/
theorem edgeWidth_bounds (ow : ℤ) :
    edgeWidthOf ow = min 20 ⌊(ow : ℚ) * (1/10)⌋ ∧
    ((edgeWidthOf ow : ℤ) : ℚ) ≤ (ow : ℚ) * (1/10) ∧
    edgeWidthOf ow ≤ 20 ∧
    ∀ oh ratio b a, (expandTrace ow oh ratio "blur" b a).head? =
      some (CodecOp.extractOp 0 0 (edgeWidthOf ow) oh) := by
  refine ⟨rfl, ?_, min_le_left _ _, fun _ _ _ _ => rfl⟩
  have h1 : ((⌊(ow : ℚ) * (1/10)⌋ : ℤ) : ℚ) ≤ (ow : ℚ) * (1/10) := Int.floor_le _
  have h2 : edgeWidthOf ow ≤ ⌊(ow : ℚ) * (1/10)⌋ := min_le_right _ _
  calc ((edgeWidthOf ow : ℤ) : ℚ) ≤ ((⌊(ow : ℚ) * (1/10)⌋ : ℤ) : ℚ) := by
        exact_mod_cast h2
    _ ≤ (ow : ℚ) * (1/10) := h1

/-- C7 (code behavior at the failing input): for a 191 × 100 source at
target ratio 1.91 the padding width is 0, yet the edge-extend branch
still extracts both 1-pixel strips and resizes each to width 0 — the
zero-width resize is attempted, not skipped. -/
theorem edge_extend_zero_padding_not_skipped :
    xOffsetOf (newWidthOf 100 (191/100)) 191 = 0 ∧
    expandTrace 191 100 (191/100) "edge-extend" 10 false =
      [CodecOp.extendOp 0 0, CodecOp.extractOp 0 0 1 100,
       CodecOp.resizeOp 0 100, CodecOp.extractOp 190 0 1 100,
       CodecOp.resizeOp 0 100, CodecOp.createCanvasOp 191 100 3,
       CodecOp.compositeOp 3] ∧
    CodecOp.resizeOp 0 100 ∈ expandTrace 191 100 (191/100) "edge-extend" 10 false := by
  have h : expandTrace 191 100 (191/100) "edge-extend" 10 false =
      [CodecOp.extendOp 0 0, CodecOp.extractOp 0 0 1 100,
       CodecOp.resizeOp 0 100, CodecOp.extractOp 190 0 1 100,
       CodecOp.resizeOp 0 100, CodecOp.createCanvasOp 191 100 3,
       CodecOp.compositeOp 3] := by
    simp only [expandTrace, String.reduceEq, reduceIte]
    norm_num [newWidthOf, jsRound, xOffsetOf, mathFloorHalf]
  refine ⟨by norm_num [newWidthOf, jsRound, xOffsetOf, mathFloorHalf], h, ?_⟩
  rw [h]
  simp

/-- C8: for every source whose channel count is 3 or 4 and every
strategy string (the three named strategies included), the output
buffer's channel count equals the source's: the canvas is allocated
with `hasAlpha ? 4 : 3` channels and compositing preserves it. -/
theorem output_channels_match (src : ImageBuffer)
    (h : src.channels = 3 ∨ src.channels = 4) (ratio : ℚ) (c s : String)
    (b : ℚ) :
    (expandPixels src ratio c s b).channels = src.channels := by
  have hc : canvasChannels src = src.channels := by
    rcases h with h | h <;> simp [canvasChannels, h]
  rw [expandPixels_channels, hc]

/-- Witness for C8 at the 3-channel `sampleSrc` and the solid strategy. -/
theorem output_channels_match_witness :
    (sampleSrc.channels = 3 ∨ sampleSrc.channels = 4) ∧
    (expandPixels sampleSrc (191/100) "black" "solid" 10).channels =
      sampleSrc.channels :=
  ⟨Or.inl rfl,
    output_channels_match sampleSrc (Or.inl rfl) (191/100) "black" "solid" 10⟩

/-- C9: the blur amount does not affect the solid strategy's output, and
the padding color does not affect the blur or edge-extend strategies'
outputs — the runs are identical buffers. -/
theorem option_noninterference (src : ImageBuffer) (ratio : ℚ)
    (c c1 c2 : String) (b b1 b2 : ℚ) :
    expandPixels src ratio c "solid" b1 = expandPixels src ratio c "solid" b2 ∧
    expandPixels src ratio c1 "blur" b = expandPixels src ratio c2 "blur" b ∧
    expandPixels src ratio c1 "edge-extend" b =
      expandPixels src ratio c2 "edge-extend" b := by
  refine ⟨?_, ?_, ?_⟩ <;> simp only [expandPixels, String.reduceEq, reduceIte]

/-- C10: calling the expansion with a padding-strategy string that is
neither "edge-extend" nor "blur" raises no error — in particular no
`InvalidOption` — and silently executes the solid-color branch. -/
theorem unknown_strategy_runs_solid (s : String)
    (h1 : s ≠ "edge-extend") (h2 : s ≠ "blur") (src : ImageBuffer)
    (ratio : ℚ) (c : String) (b : ℚ) :
    expandModel true true src ratio c s b =
      Except.ok (expandPixels src ratio c "solid" b) ∧
    ∀ e : ExpandError, expandModel true true src ratio c s b ≠ Except.error e := by
  have hb : expandPixels src ratio c s b = expandPixels src ratio c "solid" b := by
    simp only [expandPixels, if_neg h1, if_neg h2, String.reduceEq, reduceIte]
  constructor
  · exact congrArg Except.ok hb
  · intro e hcontra
    rw [show expandModel true true src ratio c s b =
        Except.ok (expandPixels src ratio c s b) from rfl] at hcontra
    exact Except.noConfusion hcontra

/-- Witness for C10 at the invalid strategy string "banana". -/
theorem unknown_strategy_runs_solid_witness :
    ("banana" : String) ≠ "edge-extend" ∧ ("banana" : String) ≠ "blur" ∧
    (expandModel true true sampleSrc (191/100) "black" "banana" 10 =
        Except.ok (expandPixels sampleSrc (191/100) "black" "solid" 10) ∧
      ∀ e : ExpandError,
        expandModel true true sampleSrc (191/100) "black" "banana" 10 ≠
          Except.error e) :=
  ⟨by decide, by decide,
    unknown_strategy_runs_solid "banana" (by decide) (by decide) sampleSrc
      (191/100) "black" 10⟩

end ExpandImages
